import Mathlib

/-!
Verification development for the OCR-LAB processing engine
(`src/ollama_ocr/ocr_processor.py`).

The Python code is shallowly embedded: pure computations become Lean
functions, the filesystem and the network become explicit oracles
(`PageIO`, `JobIO`) and an explicit list of temporary files on disk,
exceptions become `Except`, Python `float` money amounts become `ℚ`,
and Python `int` token counters become `Int` (incremented by `Nat`
amounts).  Definitions follow the source line by line; comments cite
the Python lines they embed.
-/

namespace OcrLab

/-! ## Python string helpers -/

/-- The ASCII whitespace characters stripped by Python `str.strip()`
(the embedding restricts to the ASCII range). -/
def pyWhitespaceChar (c : Char) : Bool :=
  c = ' ' || c = '\t' || c = '\n' || c = '\r' || c = '\x0b' || c = '\x0c'

/-- Truthiness of Python `s.strip()`: true iff `s` has a non-whitespace
character, i.e. `bool(s.strip())`. -/
def pyStripNonEmpty (s : String) : Bool :=
  s.data.any (fun c => !pyWhitespaceChar c)

/-- Whether `pat` is a leading segment of `s` (character lists). -/
def charsLeadMatch : List Char → List Char → Bool
  | [], _ => true
  | _ :: _, [] => false
  | a :: as, b :: bs => a = b && charsLeadMatch as bs

/-- Whether `needle` occurs inside `hay` (character lists); Python's
`needle in hay` on strings. -/
def charsContain (hay needle : List Char) : Bool :=
  charsLeadMatch needle hay ||
    (match hay with
     | [] => false
     | _ :: t => charsContain t needle)

/-- Python `needle in hay` for strings (substring containment). -/
def strIn (needle hay : String) : Bool :=
  charsContain hay.data needle.data

/-- Python `s.endswith(suffix)`. -/
def strEndsWith (s sfx : String) : Bool :=
  charsLeadMatch sfx.data.reverse s.data.reverse

/-- Python `str.lower()` (restricted to ASCII case mapping). -/
def pyLower (s : String) : String :=
  String.mk (s.data.map Char.toLower)

/-- `image_path.lower().endswith('.pdf')` — the PDF test of
`process_image` (ocr_processor.py:353). -/
def isPdfPath (p : String) : Bool :=
  strEndsWith (pyLower p) ".pdf"

/-! ## JSON model

`process_image` post-processes `format_type == "json"` output with
`json.loads` / `json.dumps(..., indent=2)` (ocr_processor.py:437-442,
510-515).  The embedding models the JSON fragment the repository can
re-serialize exactly: null, booleans, (arbitrary-precision) integers,
strings, arrays and objects; number literals with a fractional part or
an exponent (Python floats) are outside the model and make the parser
fail. -/

inductive Json where
  | null
  | bool (b : Bool)
  | num (n : Int)
  | str (s : String)
  | arr (elems : List Json)
  | obj (fields : List (String × Json))

/-- Lowercase hex digit. -/
def hexDigitChar (n : Nat) : Char :=
  if n < 10 then Char.ofNat (48 + n) else Char.ofNat (87 + n)

/-- A `\uXXXX` escape, four lowercase hex digits (as Python emits). -/
def uEscape (n : Nat) : String :=
  "\\u" ++ String.mk [hexDigitChar (n / 4096 % 16), hexDigitChar (n / 256 % 16),
                      hexDigitChar (n / 16 % 16), hexDigitChar (n % 16)]

/-- How Python `json.dumps` (default `ensure_ascii=True`) renders one
character inside a string literal. -/
def escapeJsonChar (c : Char) : String :=
  if c = '\\' then "\\\\"
  else if c = '"' then "\\\""
  else if c = '\n' then "\\n"
  else if c = '\r' then "\\r"
  else if c = '\t' then "\\t"
  else if c = '\x08' then "\\b"
  else if c = '\x0c' then "\\f"
  else if c.toNat < 32 || c.toNat > 126 then
    if c.toNat ≤ 65535 then uEscape c.toNat
    else
      uEscape (55296 + (c.toNat - 65536) / 1024) ++ uEscape (56320 + (c.toNat - 65536) % 1024)
  else String.singleton c

/-- Python `json.dumps` rendering of a string value. -/
def encodeJsonString (s : String) : String :=
  "\"" ++ String.join (s.data.map escapeJsonChar) ++ "\""

/-- `2 * level` spaces: the indentation `json.dumps(..., indent=2)`
puts in front of a nesting level. -/
def indentStr (level : Nat) : String :=
  String.mk (List.replicate (2 * level) ' ')

mutual

/-- `json.dumps(value, indent=2)`: with an indent, Python uses item
separator `","` + newline and key separator `": "`. -/
def dumpsJson (level : Nat) : Json → String
  | .null => "null"
  | .bool b => if b then "true" else "false"
  | .num n => toString n
  | .str s => encodeJsonString s
  | .arr [] => "[]"
  | .arr (x :: xs) =>
    "[\n" ++ dumpsItems (level + 1) (x :: xs) ++ "\n" ++ indentStr level ++ "]"
  | .obj [] => "\x7b\x7d"
  | .obj (f :: fs) =>
    "\x7b\n" ++ dumpsFields (level + 1) (f :: fs) ++ "\n" ++ indentStr level ++ "\x7d"

def dumpsItems (level : Nat) : List Json → String
  | [] => ""
  | [x] => indentStr level ++ dumpsJson level x
  | x :: y :: xs => indentStr level ++ dumpsJson level x ++ ",\n" ++ dumpsItems level (y :: xs)

def dumpsFields (level : Nat) : List (String × Json) → String
  | [] => ""
  | [(k, v)] => indentStr level ++ encodeJsonString k ++ ": " ++ dumpsJson level v
  | (k, v) :: f :: fs =>
    indentStr level ++ encodeJsonString k ++ ": " ++ dumpsJson level v ++ ",\n" ++
      dumpsFields level (f :: fs)

end

/-- `json.dumps(json_data, indent=2)` (ocr_processor.py:440, 513). -/
def jsonDumps2 (j : Json) : String :=
  dumpsJson 0 j

/-- JSON insignificant whitespace. -/
def jsonWs (c : Char) : Bool :=
  c = ' ' || c = '\t' || c = '\n' || c = '\r'

/-- Skip JSON whitespace. -/
def skipWs : List Char → List Char
  | [] => []
  | c :: cs => if jsonWs c then skipWs cs else c :: cs

/-- One hex digit's value. -/
def hexVal (c : Char) : Option Nat :=
  if '0' ≤ c && c ≤ '9' then some (c.toNat - 48)
  else if 'a' ≤ c && c ≤ 'f' then some (c.toNat - 87)
  else if 'A' ≤ c && c ≤ 'F' then some (c.toNat - 70)
  else none

/-- Four hex digits of a `\uXXXX` escape. -/
def parseHex4 : List Char → Option (Nat × List Char)
  | a :: b :: c :: d :: rest =>
    match hexVal a, hexVal b, hexVal c, hexVal d with
    | some x, some y, some z, some w => some (x * 4096 + y * 256 + z * 16 + w, rest)
    | _, _, _, _ => none
  | _ => none

/-- Body of a JSON string literal, after the opening quote; strict
mode: raw control characters are rejected. -/
def parseStringBody (fuel : Nat) (acc : List Char) (cs : List Char) :
    Option (String × List Char) :=
  match fuel, cs with
  | 0, _ => none
  | _, [] => none
  | fuel + 1, c :: rest =>
    if c = '"' then some (String.mk acc.reverse, rest)
    else if c = '\\' then
      match rest with
      | [] => none
      | e :: rest2 =>
        if e = '"' then parseStringBody fuel ('"' :: acc) rest2
        else if e = '\\' then parseStringBody fuel ('\\' :: acc) rest2
        else if e = '/' then parseStringBody fuel ('/' :: acc) rest2
        else if e = 'b' then parseStringBody fuel ('\x08' :: acc) rest2
        else if e = 'f' then parseStringBody fuel ('\x0c' :: acc) rest2
        else if e = 'n' then parseStringBody fuel ('\n' :: acc) rest2
        else if e = 'r' then parseStringBody fuel ('\r' :: acc) rest2
        else if e = 't' then parseStringBody fuel ('\t' :: acc) rest2
        else if e = 'u' then
          match parseHex4 rest2 with
          | some (n, rest3) =>
            if h : n.isValidChar then parseStringBody fuel (Char.ofNatAux n h :: acc) rest3
            else none
          | none => none
        else none
    else if c.toNat < 32 then none
    else parseStringBody fuel (c :: acc) rest

/-- Longest run of decimal digits. -/
def spanDigits (acc : List Char) : List Char → List Char × List Char
  | [] => (acc.reverse, [])
  | c :: rest =>
    if '0' ≤ c && c ≤ '9' then spanDigits (c :: acc) rest
    else (acc.reverse, c :: rest)

/-- Digit list to `Nat`. -/
def digitsToNat (acc : Nat) : List Char → Nat
  | [] => acc
  | c :: rest => digitsToNat (acc * 10 + (c.toNat - 48)) rest

/-- A JSON integer literal: optional minus, no leading zero, and — in
this model — no fractional part or exponent (those are Python floats,
outside the embedding). -/
def parseIntLit (cs : List Char) : Option (Int × List Char) :=
  let (neg, cs1) :=
    match cs with
    | '-' :: rest => (true, rest)
    | _ => (false, cs)
  match spanDigits [] cs1 with
  | ([], _) => none
  | (d :: ds, rest) =>
    if d = '0' && ds ≠ [] then none
    else
      match rest with
      | '.' :: _ => none
      | 'e' :: _ => none
      | 'E' :: _ => none
      | _ =>
        let n : Int := Int.ofNat (digitsToNat 0 (d :: ds))
        some (if neg then -n else n, rest)

/-- Python `dict` assignment `d[k] = v`: replace the value at an
existing key in place, otherwise append. -/
def upsert {β : Type} : List (String × β) → String → β → List (String × β)
  | [], k, v => [(k, v)]
  | kv :: d, k, v => if kv.1 == k then (k, v) :: d else kv :: upsert d k v

mutual

/-- A JSON value (strict grammar, as `json.loads`); `cs` starts at a
non-space character. -/
def parseValue (fuel : Nat) (cs : List Char) : Option (Json × List Char) :=
  match fuel with
  | 0 => none
  | fuel + 1 =>
    match cs with
    | [] => none
    | c :: rest =>
      if c = '\x7b' then parseObjBody fuel [] (skipWs rest) true
      else if c = '[' then parseArrBody fuel [] (skipWs rest) true
      else if c = '"' then
        match parseStringBody fuel [] rest with
        | some (s, rest2) => some (.str s, rest2)
        | none => none
      else
        match cs with
        | 't' :: 'r' :: 'u' :: 'e' :: rest2 => some (.bool true, rest2)
        | 'f' :: 'a' :: 'l' :: 's' :: 'e' :: rest2 => some (.bool false, rest2)
        | 'n' :: 'u' :: 'l' :: 'l' :: rest2 => some (.null, rest2)
        | _ =>
          match parseIntLit cs with
          | some (n, rest2) => some (.num n, rest2)
          | none => none

/-- Object members after `{`; `first` is true before the first member
(so `}` closes an empty object, but a trailing comma is refused).
Duplicate keys keep the last value, as a Python dict does. -/
def parseObjBody (fuel : Nat) (acc : List (String × Json)) (cs : List Char)
    (first : Bool) : Option (Json × List Char) :=
  match fuel with
  | 0 => none
  | fuel + 1 =>
    match cs with
    | '\x7d' :: rest => if first then some (.obj acc, rest) else none
    | '"' :: rest =>
      match parseStringBody fuel [] rest with
      | none => none
      | some (k, rest2) =>
        match skipWs rest2 with
        | ':' :: rest3 =>
          match parseValue fuel (skipWs rest3) with
          | none => none
          | some (v, rest4) =>
            match skipWs rest4 with
            | ',' :: rest5 => parseObjBody fuel (upsert acc k v) (skipWs rest5) false
            | '\x7d' :: rest5 => some (.obj (upsert acc k v), rest5)
            | _ => none
        | _ => none
    | _ => none

/-- Array elements after `[`. -/
def parseArrBody (fuel : Nat) (acc : List Json) (cs : List Char)
    (first : Bool) : Option (Json × List Char) :=
  match fuel with
  | 0 => none
  | fuel + 1 =>
    match cs with
    | ']' :: rest => if first then some (.arr acc.reverse, rest) else none
    | _ =>
      match parseValue fuel cs with
      | none => none
      | some (v, rest) =>
        match skipWs rest with
        | ',' :: rest2 => parseArrBody fuel (v :: acc) (skipWs rest2) false
        | ']' :: rest2 => some (.arr (v :: acc).reverse, rest2)
        | _ => none

end

/-- `json.loads(s)` over the modelled JSON fragment: parse one value,
allowing surrounding whitespace only. -/
def jsonLoads (s : String) : Option Json :=
  match parseValue (s.length + 1) (skipWs s.data) with
  | some (j, rest) => if (skipWs rest).isEmpty then some j else none
  | none => none

/-! ## Prompt templates

The `prompts` dict built inside `process_image` (ocr_processor.py:
374-423; the copy at 455-502 is byte-identical).  The Python values are
triple-quoted f-strings, so the 32/28-space continuation indentation is
part of each template. -/

/-- 32 spaces: the indentation of a template's continuation lines. -/
def ind32 : String := String.mk (List.replicate 32 ' ')

/-- 28 spaces: the indentation before the markdown template's closing
quotes. -/
def ind28 : String := String.mk (List.replicate 28 ' ')

/-- The `"markdown"` template (ocr_processor.py:375-381). -/
def markdownTemplate (language : String) : String :=
  "Extract all text content from this image in " ++ language ++
    " **exactly as it appears**, without modification, summarization, or omission.\n" ++
  ind32 ++ "Format the output in markdown:\n" ++
  ind32 ++ "- Use headers (#, ##, ###) **only if they appear in the image**\n" ++
  ind32 ++ "- Preserve original lists (-, *, numbered lists) as they are\n" ++
  ind32 ++ "- Maintain all text formatting (bold, italics, underlines) exactly as seen\n" ++
  ind32 ++ "- **Do not add, interpret, or restructure any content**\n" ++
  ind28

/-- The `"text"` template (ocr_processor.py:382-387). -/
def textTemplate (language : String) : String :=
  "Extract all visible text from this image in " ++ language ++
    " **without any changes**.\n" ++
  ind32 ++ "- **Do not summarize, paraphrase, or infer missing text.**\n" ++
  ind32 ++ "- Retain all spacing, punctuation, and formatting exactly as in the image.\n" ++
  ind32 ++ "- If text is unclear or partially visible, extract as much as possible without guessing.\n" ++
  ind32 ++ "- **Include all text, even if it seems irrelevant or repeated.** \n" ++
  ind32

/-- The `"json"` template (ocr_processor.py:390-395). -/
def jsonTemplate (language : String) : String :=
  "Extract all text from this image in " ++ language ++
    " and format it as JSON, **strictly preserving** the structure.\n" ++
  ind32 ++ "- **Do not summarize, add, or modify any text.**\n" ++
  ind32 ++ "- Maintain hierarchical sections and subsections as they appear.\n" ++
  ind32 ++ "- Use keys that reflect the document's actual structure (e.g., \"title\", \"body\", \"footer\").\n" ++
  ind32 ++ "- Include all text, even if fragmented, blurry, or unclear.\n" ++
  ind32

/-- The `"structured"` template (ocr_processor.py:398-403). -/
def structuredTemplate (language : String) : String :=
  "Extract all text from this image in " ++ language ++
    ", **ensuring complete structural accuracy**:\n" ++
  ind32 ++ "- Identify and format tables **without altering content**.\n" ++
  ind32 ++ "- Preserve list structures (bulleted, numbered) **exactly as shown**.\n" ++
  ind32 ++ "- Maintain all section headings, indents, and alignments.\n" ++
  ind32 ++ "- **Do not add, infer, or restructure the content in any way.**\n" ++
  ind32

/-- The `"key_value"` template (ocr_processor.py:406-411). -/
def keyValueTemplate (language : String) : String :=
  "Extract all key-value pairs from this image in " ++ language ++
    " **exactly as they appear**:\n" ++
  ind32 ++ "- Identify and extract labels and their corresponding values without modification.\n" ++
  ind32 ++ "- Maintain the exact wording, punctuation, and order.\n" ++
  ind32 ++ "- Format each pair as 'key: value' **only if clearly structured that way in the image**.\n" ++
  ind32 ++ "- **Do not infer missing values or add any extra text.**\n" ++
  ind32

/-- The `"table"` template (ocr_processor.py:413-419). -/
def tableTemplate (language : String) : String :=
  "Extract all tabular data from this image in " ++ language ++
    " **exactly as it appears**, without modification, summarization, or omission.\n" ++
  ind32 ++ "- **Preserve the table structure** (rows, columns, headers) as closely as possible.\n" ++
  ind32 ++ "- **Do not add missing values or infer content**—if a cell is empty, leave it empty.\n" ++
  ind32 ++ "- Maintain all numerical, textual, and special character formatting.\n" ++
  ind32 ++ "- If the table contains merged cells, indicate them clearly without altering their meaning.\n" ++
  ind32 ++ "- Output the table in a structured format such as Markdown, CSV, or JSON, based on the intended use.\n" ++
  ind32

/-- The `prompts` dict, in insertion order. -/
def promptTemplates (language : String) : List (String × String) :=
  [("markdown", markdownTemplate language),
   ("text", textTemplate language),
   ("json", jsonTemplate language),
   ("structured", structuredTemplate language),
   ("key_value", keyValueTemplate language),
   ("table", tableTemplate language)]

/-- `prompts.get(format_type, prompts["text"])` (ocr_processor.py:423,
502). -/
def templateFor (formatType language : String) : String :=
  ((promptTemplates language).lookup formatType).getD (textTemplate language)

/-- `if custom_prompt and custom_prompt.strip(): prompt = custom_prompt
else: prompt = <template>` (ocr_processor.py:371-372, 452-453); a
missing custom prompt is `none` (Python `None`). -/
def buildPrompt (customPrompt : Option String) (formatType language : String) : String :=
  match customPrompt with
  | some c => if !(c == "") && pyStripNonEmpty c then c else templateFor formatType language
  | none => templateFor formatType language

/-! ## The `process_image` job model

External effects are oracles: `PageIO` fixes, for one page, whether
`_preprocess_image` succeeds (`cv2.imread` can fail), whether reading
and base64-encoding the file succeeds, and the backend call's outcome
(`requests.post` / `raise_for_status`); on failure the oracle carries
the Python exception's message.  The temporary files present on disk
are threaded explicitly as a duplicate-free list. -/

structure PageIO where
  pre : Except String Unit
  enc : Except String Unit
  api : Except String String

/-- A page whose three stages all succeed, the backend answering `r`. -/
def mkOkPage (r : String) : PageIO :=
  ⟨.ok (), .ok (), .ok r⟩

structure JobIO where
  /-- `_pdf_to_images`: page count (as per-page oracles) or the wrapped
  failure message; consulted only when the path ends in `.pdf`. -/
  raster : Except String (List PageIO)
  /-- The single-image stages; consulted only for non-PDF paths. -/
  single : PageIO

/-- Creating a file: a real filesystem never holds two files of one
name, so creating an existing name overwrites it. -/
def fsCreate (disk : List String) (name : String) : List String :=
  if name ∈ disk then disk else disk ++ [name]

/-- `os.remove`. -/
def fsRemove (disk : List String) (name : String) : List String :=
  disk.filter (fun f => f != name)

/-- `f"{pdf_path}_page{page_num}.png"` (ocr_processor.py:290). -/
def pagePng (pdfPath : String) (pageNum : Nat) : String :=
  pdfPath ++ "_page" ++ toString pageNum ++ ".png"

/-- What `process_image` returns and leaves behind: the returned
string, the temporary files still on disk, and the prompt sent to the
backend for each attempted page call. -/
structure JobRun where
  output : String
  disk : List String
  prompts : List String

/-- JSON post-processing of `process_image`'s result (ocr_processor.py:
437-443 and 510-517): for `format_type == "json"`, re-emit parsed JSON
pretty-printed, or return the raw text on a parse failure. -/
def jsonPostProcess (formatType raw : String) : String :=
  if formatType = "json" then
    match jsonLoads raw with
    | some j => jsonDumps2 j
    | none => raw
  else raw

/-- The per-page loop of the PDF branch (ocr_processor.py:358-434):
preprocess (writing `page_file + "_preprocessed.jpg"`), encode, call
the backend, append `"Page {idx+1}:\n" + res`, then delete that page's
temporaries; any stage's exception aborts the loop without cleanup. -/
def pdfLoop (preprocess : Bool) (prompt : String) :
    Nat → List (String × PageIO) → List String → List String → List String →
    Except String (List String) × List String × List String
  | _, [], responses, disk, sent => (.ok responses, disk, sent)
  | idx, (pageFile, io) :: rest, responses, disk, sent =>
    let step : Except String (String × List String) :=
      if preprocess then
        match io.pre with
        | .error e => .error e
        | .ok _ =>
          .ok (pageFile ++ "_preprocessed.jpg", fsCreate disk (pageFile ++ "_preprocessed.jpg"))
      else .ok (pageFile, disk)
    match step with
    | .error e => (.error e, disk, sent)
    | .ok (path, disk1) =>
      match io.enc with
      | .error e => (.error e, disk1, sent)
      | .ok _ =>
        let sent1 := sent ++ [prompt]
        match io.api with
        | .error e => (.error e, disk1, sent1)
        | .ok res =>
          let responses1 := responses ++ ["Page " ++ toString (idx + 1) ++ ":\n" ++ res]
          let disk2 :=
            if preprocess && strEndsWith path "_preprocessed.jpg" then fsRemove disk1 path
            else disk1
          let disk3 := if strEndsWith pageFile ".png" then fsRemove disk2 pageFile else disk2
          pdfLoop preprocess prompt (idx + 1) rest responses1 disk3 sent1

/-- The body of `process_image`'s `try` block (ocr_processor.py:
351-517), its exception as `Except.error`. -/
def processImageCore (imagePath formatType : String) (preprocess : Bool)
    (customPrompt : Option String) (language : String) (io : JobIO) :
    Except String String × List String × List String :=
  if isPdfPath imagePath then
    match io.raster with
    | .error e => (.error ("Could not convert PDF to images: " ++ e), [], [])
    | .ok pageIOs =>
      let pageFiles := (List.range pageIOs.length).map (pagePng imagePath)
      let prompt := buildPrompt customPrompt formatType language
      match pdfLoop preprocess prompt 0 (pageFiles.zip pageIOs) [] pageFiles [] with
      | (.error e, disk, sent) => (.error e, disk, sent)
      | (.ok responses, disk, sent) =>
        let finalResult := String.intercalate "\n" responses
        (.ok (jsonPostProcess formatType finalResult), disk, sent)
  else
    let step : Except String (String × List String) :=
      if preprocess then
        match io.single.pre with
        | .error e => .error e
        | .ok _ => .ok (imagePath ++ "_preprocessed.jpg", [imagePath ++ "_preprocessed.jpg"])
      else .ok (imagePath, [])
    match step with
    | .error e => (.error e, [], [])
    | .ok (processedPath, disk) =>
      match io.single.enc with
      | .error e => (.error e, disk, [])
      | .ok _ =>
        let prompt := buildPrompt customPrompt formatType language
        match io.single.api with
        | .error e => (.error e, disk, [prompt])
        | .ok result =>
          let disk1 :=
            if strEndsWith processedPath "_preprocessed.jpg" || strEndsWith processedPath "_temp.jpg"
            then fsRemove disk processedPath
            else disk
          (.ok (jsonPostProcess formatType result), disk1, [prompt])

/-- `process_image` (ocr_processor.py:339-519): the catch-all
`except Exception` turns any internal failure into the ordinary string
`"Error processing image: " + str(e)`. -/
def processImage (imagePath formatType : String) (preprocess : Bool)
    (customPrompt : Option String) (language : String) (io : JobIO) : JobRun :=
  match processImageCore imagePath formatType preprocess customPrompt language io with
  | (.ok out, disk, sent) => ⟨out, disk, sent⟩
  | (.error e, disk, sent) => ⟨"Error processing image: " ++ e, disk, sent⟩

/-! ## The `process_batch` model

`process_batch` (ocr_processor.py:521-590) submits `process_image` for
each path to a thread pool and collects `future.result()` into
`results`, or — should `future.result()` raise — the exception's
message into `errors`.  The job function is deterministic in the job's
identifier, so the final dictionaries do not depend on the completion
order; the fold below processes submissions in order. -/

structure BatchResult where
  results : List (String × String)
  errors : List (String × String)
  total : Nat
  successful : Nat
  failed : Nat

/-- The collection loop over completed futures: `results[str(path)] =
future.result()` on a normal return, `errors[str(path)] = str(e)` on a
raised exception. -/
def batchRun (f : String → Except String String) :
    List String → List (String × String) × List (String × String) →
    List (String × String) × List (String × String)
  | [], acc => acc
  | id :: ids, (res, errs) =>
    match f id with
    | .ok t => batchRun f ids (upsert res id t, errs)
    | .error e => batchRun f ids (res, upsert errs id e)

/-- `process_batch` over an explicit list of job identifiers (the
`str(path)` keys), with the job boundary abstracted as `f`. -/
def processBatch (f : String → Except String String) (ids : List String) : BatchResult :=
  let (res, errs) := batchRun f ids ([], [])
  ⟨res, errs, ids.length, res.length, errs.length⟩

/-- `process_batch` as composed in the repository: each job runs
`process_image`, which returns normally on every input (its blanket
`except Exception` never lets an exception reach `future.result()`). -/
def processBatchJobs (formatType : String) (preprocess : Bool)
    (customPrompt : Option String) (language : String)
    (io : String → JobIO) (ids : List String) : BatchResult :=
  processBatch
    (fun id => .ok (processImage id formatType preprocess customPrompt language (io id)).output)
    ids

/-! ## Pricing and the usage ledger -/

/-- `PRICING["openai"]` (ocr_processor.py:18-24), insertion order,
prices per 1M tokens as exact rationals. -/
def openaiPricing : List (String × ℚ × ℚ) :=
  [("gpt-4o", (2.5, 10)),
   ("gpt-4o-mini", (0.15, 0.6)),
   ("gpt-4-turbo", (10, 30)),
   ("gpt-4", (30, 60)),
   ("gpt-3.5-turbo", (0.5, 1.5))]

/-- `PRICING["gemini"]` (ocr_processor.py:25-29). -/
def geminiPricing : List (String × ℚ × ℚ) :=
  [("gemini-1.5-pro", (1.25, 5)),
   ("gemini-1.5-flash", (0.075, 0.3)),
   ("gemini-2.0-flash-exp", (0, 0))]

/-- The `for model_key in self.PRICING[provider]: if model_key in
self.model_name: ... break` scan (ocr_processor.py:111-114, 118-121). -/
def scanPricing (modelName : String) : List (String × ℚ × ℚ) → Option (ℚ × ℚ)
  | [] => none
  | (key, p) :: rest => if strIn key modelName then some p else scanPricing modelName rest

/-- `_calculate_cost` (ocr_processor.py:103-129): free for ollama;
otherwise first-substring-match lookup with a per-provider default
(`gpt-4o`, resp. `gemini-1.5-flash`), then
`tokens/1_000_000 * price` summed over input and output. -/
def calculateCost (apiProvider modelName : String) (inputTokens outputTokens : Nat) : ℚ :=
  if apiProvider = "ollama" then 0
  else
    let pricing : Option (ℚ × ℚ) :=
      if apiProvider = "openai" then
        some ((scanPricing modelName openaiPricing).getD (2.5, 10))
      else if apiProvider = "gemini" then
        some ((scanPricing modelName geminiPricing).getD (0.075, 0.3))
      else none
    match pricing with
    | some p => (inputTokens : ℚ) / 1000000 * p.1 + (outputTokens : ℚ) / 1000000 * p.2
    | none => 0

/-- The spec's description of the lookup: scan the provider's table in
order, take the first key occurring as a substring of the model name,
fall back to the provider default. -/
def selectPricing (apiProvider modelName : String) : ℚ × ℚ :=
  if apiProvider = "openai" then
    ((openaiPricing.find? (fun e => strIn e.1 modelName)).map Prod.snd).getD (2.5, 10)
  else
    ((geminiPricing.find? (fun e => strIn e.1 modelName)).map Prod.snd).getD (0.075, 0.3)

/-- One lifetime event of the ledger: a backend call that contributes
`(input_tokens, output_tokens)`, or `reset_usage_stats()`. -/
inductive LedgerOp where
  | call (inputTokens outputTokens : Nat)
  | reset

/-- `total_input_tokens`, `total_output_tokens`, `total_cost`
(ocr_processor.py:53-55); the Python counters are unbounded ints. -/
structure Ledger where
  totalInputTokens : Int
  totalOutputTokens : Int
  totalCost : ℚ

def Ledger.init : Ledger := ⟨0, 0, 0⟩

/-- The counter updates of `_call_openai_vision` / `_call_gemini_vision`
(ocr_processor.py:194-196, 242-244) and of the ollama branch of
`_call_vision_api` (ocr_processor.py:272-274), which adds tokens but —
"Ollama is free" — no cost; `reset_usage_stats` (ocr_processor.py:
144-148) zeroes everything. -/
def applyOp (apiProvider modelName : String) (l : Ledger) : LedgerOp → Ledger
  | .call i o =>
    { totalInputTokens := l.totalInputTokens + i
      totalOutputTokens := l.totalOutputTokens + o
      totalCost :=
        if apiProvider = "ollama" then l.totalCost
        else l.totalCost + calculateCost apiProvider modelName i o }
  | .reset => Ledger.init

/-- The ledger after a lifetime of operations on one processor
instance (provider and model are fixed at construction). -/
def runOps (apiProvider modelName : String) (ops : List LedgerOp) : Ledger :=
  ops.foldl (applyOp apiProvider modelName) Ledger.init

/-! ## Preprocessing pipeline selection and constructor validation -/

/-- The language list of `_preprocess_image`'s CJK test
(ocr_processor.py:322). -/
def cjkLanguages : List String :=
  ["japanese", "chinese", "zh", "korean"]

/-- The image operations `_preprocess_image` applies, in order
(ocr_processor.py:298-337): grayscale; CLAHE (clip 2.0, 8×8 tiles);
non-local-means denoising; then the language-dependent binarization and
a `bitwise_not` inversion. -/
inductive ImgOp where
  | grayscale
  | claheEnhance (clipLimit : ℚ) (tileW tileH : Nat)
  | denoise
  | adaptiveThresholdGaussian (maxValue blockSize c : Nat)
  | otsuThreshold (thresh maxValue : Nat)
  | invert
deriving DecidableEq

/-- The pipeline `_preprocess_image` runs for a given language hint:
`language.lower() in ["japanese", "chinese", "zh", "korean"]` selects
adaptive Gaussian thresholding (255, block 11, constant 2), anything
else Otsu (0, 255); both are followed by inversion.  The choice depends
on nothing but the language string. -/
def preprocessOps (language : String) : List ImgOp :=
  [.grayscale, .claheEnhance 2 8 8, .denoise] ++
    (if pyLower language ∈ cjkLanguages then
      [.adaptiveThresholdGaussian 255 11 2, .invert]
    else
      [.otsuThreshold 0 255, .invert])

/-- Truthiness of Python `not self.api_key` for an optional credential:
true for `None` and for the empty string. -/
def pyStrFalsy : Option String → Bool
  | none => true
  | some s => s == ""

/-- The credential check of `OCRProcessor.__init__` (ocr_processor.py:
66-68): a hosted provider without a (truthy) API key raises
`ValueError` before any job can be submitted. -/
def initProcessor (apiProvider : String) (apiKey : Option String) : Except String Unit :=
  let p := pyLower apiProvider
  if (p == "openai" || p == "gemini") && pyStrFalsy apiKey then
    .error ("API key is required for " ++ p)
  else .ok ()

/-! ## Helper lemmas -/

theorem charsLeadMatch_append (p q : List Char) : charsLeadMatch p (p ++ q) = true := by
  induction p with
  | nil => rfl
  | cons a as ih => simp [charsLeadMatch, ih]

theorem strEndsWith_append (s t : String) : strEndsWith (s ++ t) t = true := by
  unfold strEndsWith
  rw [String.data_append, List.reverse_append]
  exact charsLeadMatch_append _ _

theorem pagePng_endsWith (p : String) (i : Nat) : strEndsWith (pagePng p i) ".png" = true := by
  unfold pagePng
  exact strEndsWith_append _ _

theorem fsRemove_nil (n : String) : fsRemove [] n = [] := rfl

theorem mem_fsRemove {disk : List String} {n f : String} :
    f ∈ fsRemove disk n ↔ f ∈ disk ∧ f ≠ n := by
  simp [fsRemove, List.mem_filter, bne_iff_ne]

theorem mem_fsCreate {disk : List String} {n f : String} (h : f ∈ fsCreate disk n) :
    f ∈ disk ∨ f = n := by
  unfold fsCreate at h
  split at h
  · exact Or.inl h
  · rcases List.mem_append.mp h with h1 | h1
    · exact Or.inl h1
    · exact Or.inr (List.mem_singleton.mp h1)

theorem fsRemove_singleton_self (n : String) : fsRemove [n] n = [] := by
  simp [fsRemove]

/-! Association-list (Python dict) lemmas for `upsert`. -/

theorem upsert_map_fst {β : Type} (d : List (String × β)) (k : String) (v : β) :
    (upsert d k v).map Prod.fst =
      if k ∈ d.map Prod.fst then d.map Prod.fst else d.map Prod.fst ++ [k] := by
  induction d with
  | nil => simp [upsert]
  | cons kv d ih =>
    by_cases hk : kv.1 = k
    · simp [upsert, hk]
    · have hbeq : (kv.1 == k) = false := beq_eq_false_iff_ne.mpr hk
      by_cases hm : k ∈ d.map Prod.fst
      · simp [upsert, hbeq, ih, hm, List.mem_cons, Ne.symm hk]
      · simp [upsert, hbeq, ih, hm, List.mem_cons, Ne.symm hk]

theorem mem_upsert_fst {β : Type} {d : List (String × β)} {k k' : String} {v : β} :
    k' ∈ (upsert d k v).map Prod.fst ↔ k' ∈ d.map Prod.fst ∨ k' = k := by
  rw [upsert_map_fst]
  by_cases hm : k ∈ d.map Prod.fst
  · simp only [hm, if_pos]
    constructor
    · exact Or.inl
    · rintro (h | rfl)
      · exact h
      · exact hm
  · simp [hm]

theorem nodup_upsert_fst {β : Type} {d : List (String × β)} {k : String} {v : β}
    (h : (d.map Prod.fst).Nodup) : ((upsert d k v).map Prod.fst).Nodup := by
  rw [upsert_map_fst]
  by_cases hm : k ∈ d.map Prod.fst
  · simpa [hm] using h
  · simp only [hm, if_neg, not_false_iff]
    rw [List.nodup_append]
    refine ⟨h, List.nodup_singleton _, ?_⟩
    intro a ha hak
    rw [List.mem_singleton] at hak
    exact hm (hak ▸ ha)

theorem lookup_upsert_self {β : Type} (d : List (String × β)) (k : String) (v : β) :
    (upsert d k v).lookup k = some v := by
  induction d with
  | nil => simp [upsert, List.lookup]
  | cons kv d ih =>
    by_cases hk : kv.1 = k
    · simp [upsert, hk, List.lookup]
    · have hbeq : (kv.1 == k) = false := beq_eq_false_iff_ne.mpr hk
      have hbeq' : (k == kv.1) = false := beq_eq_false_iff_ne.mpr (Ne.symm hk)
      simp [upsert, hbeq, List.lookup, hbeq', ih]

theorem lookup_upsert_ne {β : Type} (d : List (String × β)) {k k' : String} (v : β)
    (h : k' ≠ k) : (upsert d k v).lookup k' = d.lookup k' := by
  induction d with
  | nil => simp [upsert, List.lookup, beq_eq_false_iff_ne.mpr h]
  | cons kv d ih =>
    by_cases hk : kv.1 = k
    · simp [upsert, hk, List.lookup, beq_eq_false_iff_ne.mpr h, beq_eq_false_iff_ne.mpr (hk ▸ h)]
    · have hbeq : (kv.1 == k) = false := beq_eq_false_iff_ne.mpr hk
      by_cases hk' : k' = kv.1
      · simp [upsert, hbeq, List.lookup, hk']
      · simp [upsert, hbeq, List.lookup, beq_eq_false_iff_ne.mpr hk', ih]

/-! Batch-fold lemmas: the collection loop when every job function
call returns normally (as `process_image` does). -/

/-- The results dictionary after inserting `g id` for each id. -/
def resAfter (g : String → String) (ids : List String) (res : List (String × String)) :
    List (String × String) :=
  ids.foldl (fun r id => upsert r id (g id)) res

theorem batchRun_ok (g : String → String) (ids : List String)
    (res errs : List (String × String)) :
    batchRun (fun id => .ok (g id)) ids (res, errs) = (resAfter g ids res, errs) := by
  induction ids generalizing res with
  | nil => rfl
  | cons a ids ih => simp [batchRun, resAfter, List.foldl_cons, ih]

theorem mem_fst_resAfter (g : String → String) (ids : List String)
    (res : List (String × String)) (k : String) :
    k ∈ (resAfter g ids res).map Prod.fst ↔ k ∈ res.map Prod.fst ∨ k ∈ ids := by
  induction ids generalizing res with
  | nil => simp [resAfter]
  | cons a ids ih =>
    simp only [resAfter, List.foldl_cons] at *
    rw [ih]
    rw [mem_upsert_fst]
    constructor
    · rintro ((h | rfl) | h)
      · exact Or.inl h
      · exact Or.inr (List.mem_cons_self _ _)
      · exact Or.inr (List.mem_cons_of_mem _ h)
    · rintro (h | h)
      · exact Or.inl (Or.inl h)
      · rcases List.mem_cons.mp h with rfl | h
        · exact Or.inl (Or.inr rfl)
        · exact Or.inr h

theorem nodup_fst_resAfter (g : String → String) (ids : List String)
    (res : List (String × String)) (h : (res.map Prod.fst).Nodup) :
    ((resAfter g ids res).map Prod.fst).Nodup := by
  induction ids generalizing res with
  | nil => exact h
  | cons a ids ih => exact ih _ (nodup_upsert_fst h)

theorem lookup_resAfter_not_mem (g : String → String) (ids : List String)
    (res : List (String × String)) (id : String) (h : id ∉ ids) :
    (resAfter g ids res).lookup id = res.lookup id := by
  induction ids generalizing res with
  | nil => rfl
  | cons a ids ih =>
    have hstep : resAfter g (a :: ids) res = resAfter g ids (upsert res a (g a)) := rfl
    rw [hstep, ih _ (fun hm => h (List.mem_cons_of_mem _ hm))]
    exact lookup_upsert_ne _ _ (fun he => h (he ▸ List.mem_cons_self _ _))

theorem lookup_resAfter_mem (g : String → String) (ids : List String)
    (res : List (String × String)) (id : String) (h : id ∈ ids) :
    (resAfter g ids res).lookup id = some (g id) := by
  induction ids generalizing res with
  | nil => cases h
  | cons a ids ih =>
    by_cases hm : id ∈ ids
    · exact ih _ hm
    · rcases List.mem_cons.mp h with rfl | h'
      · have hstep : resAfter g (id :: ids) res = resAfter g ids (upsert res id (g id)) := rfl
        rw [hstep, lookup_resAfter_not_mem _ _ _ _ hm]
        exact lookup_upsert_self _ _ _
      · exact absurd h' hm

/-! Lemmas about the PDF page loop. -/

/-- What one successful loop iteration does to the disk: create the
enhanced image (when preprocessing), then delete it and the page's
raster PNG. -/
def cleanupStep (preprocess : Bool) (disk : List String) (pageFile : String) : List String :=
  let path := if preprocess then pageFile ++ "_preprocessed.jpg" else pageFile
  let disk1 := if preprocess then fsCreate disk path else disk
  let disk2 :=
    if preprocess && strEndsWith path "_preprocessed.jpg" then fsRemove disk1 path else disk1
  if strEndsWith pageFile ".png" then fsRemove disk2 pageFile else disk2

/-- `"Page {idx+1}:\n" + text` markers, consecutively numbered from
`idx + 1`. -/
def numberPages (idx : Nat) : List String → List String
  | [] => []
  | r :: rs => ("Page " ++ toString (idx + 1) ++ ":\n" ++ r) :: numberPages (idx + 1) rs

theorem numberPages_eq_mapIdx (idx : Nat) (rs : List String) :
    numberPages idx rs =
      rs.mapIdx (fun i r => "Page " ++ toString (idx + i + 1) ++ ":\n" ++ r) := by
  induction rs generalizing idx with
  | nil => rfl
  | cons r rs ih =>
    rw [List.mapIdx_cons]
    show ("Page " ++ toString (idx + 1) ++ ":\n" ++ r) :: numberPages (idx + 1) rs = _
    rw [ih (idx + 1)]
    have harg : (fun i r => "Page " ++ toString (idx + 1 + i + 1) ++ ":\n" ++ r) =
        (fun i r => "Page " ++ toString (idx + (i + 1) + 1) ++ ":\n" ++ (r : String)) := by
      funext i r
      have : idx + 1 + i + 1 = idx + (i + 1) + 1 := by omega
      rw [this]
    rw [harg]

/-- Unfolding one fully-successful iteration of the page loop. -/
theorem pdfLoop_cons_ok (preprocess : Bool) (prompt : String) (idx : Nat) (pf r : String)
    (rest : List (String × PageIO)) (resp disk sent : List String) :
    pdfLoop preprocess prompt idx ((pf, mkOkPage r) :: rest) resp disk sent =
      pdfLoop preprocess prompt (idx + 1) rest
        (resp ++ ["Page " ++ toString (idx + 1) ++ ":\n" ++ r])
        (cleanupStep preprocess disk pf)
        (sent ++ [prompt]) := by
  cases preprocess <;> rfl

theorem pdfLoop_allOk (preprocess : Bool) (prompt : String) (rs : List String) :
    ∀ (pfs : List String) (idx : Nat) (resp disk sent : List String),
      pfs.length = rs.length →
      pdfLoop preprocess prompt idx (pfs.zip (rs.map mkOkPage)) resp disk sent =
        (.ok (resp ++ numberPages idx rs),
         List.foldl (cleanupStep preprocess) disk pfs,
         sent ++ List.replicate rs.length prompt) := by
  induction rs with
  | nil =>
    intro pfs idx resp disk sent hlen
    rw [List.length_nil] at hlen
    rw [List.eq_nil_of_length_eq_zero hlen]
    simp [pdfLoop, numberPages]
  | cons r rs ih =>
    intro pfs idx resp disk sent hlen
    cases pfs with
    | nil => simp at hlen
    | cons pf pfs =>
      rw [List.length_cons, List.length_cons, Nat.succ_inj] at hlen
      rw [List.map_cons, List.zip_cons_cons]
      rw [pdfLoop_cons_ok]
      rw [ih pfs (idx + 1) _ _ _ hlen]
      simp [numberPages, List.replicate_succ, List.append_assoc, List.foldl_cons]

theorem mem_cleanupStep {preprocess : Bool} {disk : List String} {pageFile f : String}
    (hpng : strEndsWith pageFile ".png" = true)
    (h : f ∈ cleanupStep preprocess disk pageFile) : f ∈ disk ∧ f ≠ pageFile := by
  cases preprocess with
  | false =>
    simp only [cleanupStep, ite_false, Bool.false_and, hpng, ite_true] at h
    exact mem_fsRemove.mp h
  | true =>
    simp only [cleanupStep, ite_true, Bool.true_and,
      strEndsWith_append pageFile "_preprocessed.jpg", hpng] at h
    obtain ⟨h1, hne⟩ := mem_fsRemove.mp h
    obtain ⟨h2, hnp⟩ := mem_fsRemove.mp h1
    rcases mem_fsCreate h2 with h3 | h3
    · exact ⟨h3, hne⟩
    · exact absurd h3 hnp

theorem mem_foldl_cleanup {preprocess : Bool} :
    ∀ (pfs : List String) (disk : List String) (f : String),
      (∀ pf ∈ pfs, strEndsWith pf ".png" = true) →
      f ∈ List.foldl (cleanupStep preprocess) disk pfs → f ∈ disk ∧ f ∉ pfs := by
  intro pfs
  induction pfs with
  | nil => intro disk f _ h; exact ⟨h, List.not_mem_nil f⟩
  | cons pf pfs ih =>
    intro disk f hall h
    rw [List.foldl_cons] at h
    obtain ⟨h1, h2⟩ := ih _ f (fun x hx => hall x (List.mem_cons_of_mem _ hx)) h
    obtain ⟨h3, h4⟩ := mem_cleanupStep (hall pf (List.mem_cons_self _ _)) h1
    refine ⟨h3, ?_⟩
    intro hm
    rcases List.mem_cons.mp hm with rfl | hm'
    · exact h4 rfl
    · exact h2 hm'

theorem foldl_cleanup_self {preprocess : Bool} (pfs : List String)
    (hall : ∀ pf ∈ pfs, strEndsWith pf ".png" = true) :
    List.foldl (cleanupStep preprocess) pfs pfs = [] := by
  rw [List.eq_nil_iff_forall_not_mem]
  intro f hf
  obtain ⟨h1, h2⟩ := mem_foldl_cleanup pfs pfs f hall hf
  exact h2 h1

/-- Every prompt the page loop records is the one prompt it was given. -/
theorem pdfLoop_prompts_mem {preprocess : Bool} {prompt : String} :
    ∀ (pages : List (String × PageIO)) (idx : Nat) (resp disk sent : List String) (q : String),
      q ∈ (pdfLoop preprocess prompt idx pages resp disk sent).2.2 →
      q ∈ sent ∨ q = prompt := by
  intro pages
  induction pages with
  | nil => intro idx resp disk sent q h; exact Or.inl h
  | cons page rest ih =>
    intro idx resp disk sent q h
    obtain ⟨pageFile, io⟩ := page
    rw [pdfLoop] at h
    rcases hstep : (if preprocess then
        match io.pre with
        | .error e => .error e
        | .ok _ =>
          .ok (pageFile ++ "_preprocessed.jpg", fsCreate disk (pageFile ++ "_preprocessed.jpg"))
      else .ok (pageFile, disk) : Except String (String × List String)) with e | pd
    · rw [hstep] at h
      exact Or.inl h
    · rw [hstep] at h
      cases henc : io.enc with
      | error e => rw [henc] at h; exact Or.inl h
      | ok u =>
        rw [henc] at h
        cases hapi : io.api with
        | error e =>
          rw [hapi] at h
          rcases List.mem_append.mp h with h1 | h1
          · exact Or.inl h1
          · exact Or.inr (List.mem_singleton.mp h1)
        | ok res =>
          rw [hapi] at h
          rcases ih _ _ _ _ _ h with h1 | h1
          · rcases List.mem_append.mp h1 with h2 | h2
            · exact Or.inl h2
            · exact Or.inr (List.mem_singleton.mp h2)
          · exact Or.inr h1

/-- Every prompt `process_image` sends is `buildPrompt` of its
arguments. -/
theorem processImage_prompts (imagePath formatType language : String)
    (customPrompt : Option String) (preprocess : Bool) (io : JobIO) (q : String)
    (h : q ∈ (processImage imagePath formatType preprocess customPrompt language io).prompts) :
    q = buildPrompt customPrompt formatType language := by
  have hcore : q ∈ (processImageCore imagePath formatType preprocess
      customPrompt language io).2.2 := by
    unfold processImage at h
    rcases hc : processImageCore imagePath formatType preprocess customPrompt language io
      with ⟨r, d, s⟩
    rw [hc] at h
    cases r <;> simpa using h
  unfold processImageCore at hcore
  by_cases hpdf : isPdfPath imagePath = true
  · rw [if_pos hpdf] at hcore
    cases hr : io.raster with
    | error e => rw [hr] at hcore; cases hcore
    | ok pageIOs =>
      rw [hr] at hcore
      simp only [] at hcore
      rcases hloop : pdfLoop preprocess (buildPrompt customPrompt formatType language) 0
          ((List.map (pagePng imagePath) (List.range pageIOs.length)).zip pageIOs) []
          (List.map (pagePng imagePath) (List.range pageIOs.length)) [] with ⟨r, d, s⟩
      rw [hloop] at hcore
      have hmem : q ∈ s := by
        cases r <;> simpa using hcore
      have := pdfLoop_prompts_mem _ _ _ _ _ q (by rw [hloop]; exact hmem)
      rcases this with h1 | h1
      · cases h1
      · exact h1
  · rw [if_neg hpdf] at hcore
    rcases hstep : (if preprocess then
        match io.single.pre with
        | .error e => .error e
        | .ok _ => .ok (imagePath ++ "_preprocessed.jpg", [imagePath ++ "_preprocessed.jpg"])
      else .ok (imagePath, []) : Except String (String × List String)) with e | pd
    · rw [hstep] at hcore; cases hcore
    · rw [hstep] at hcore
      cases henc : io.single.enc with
      | error e => rw [henc] at hcore; cases hcore
      | ok u =>
        rw [henc] at hcore
        cases hapi : io.single.api with
        | error e =>
          rw [hapi] at hcore
          exact List.mem_singleton.mp hcore
        | ok res =>
          rw [hapi] at hcore
          exact List.mem_singleton.mp hcore

/-- The catch-all of `process_image`: an internal exception becomes the
error-prefixed return string. -/
theorem output_of_core_error {imagePath formatType language msg : String}
    {customPrompt : Option String} {preprocess : Bool} {io : JobIO}
    (h : (processImageCore imagePath formatType preprocess customPrompt language io).1 =
      .error msg) :
    (processImage imagePath formatType preprocess customPrompt language io).output =
      "Error processing image: " ++ msg := by
  unfold processImage
  rcases hc : processImageCore imagePath formatType preprocess customPrompt language io
    with ⟨r, d, s⟩
  rw [hc] at h
  simp only at h
  subst h
  rfl

/-- The single-image branch with all three stages succeeding. -/
theorem processImageCore_single_ok (imagePath formatType language raw : String)
    (customPrompt : Option String) (preprocess : Bool) (raster : Except String (List PageIO))
    (hp : isPdfPath imagePath = false) :
    processImageCore imagePath formatType preprocess customPrompt language
        ⟨raster, mkOkPage raw⟩ =
      (.ok (jsonPostProcess formatType raw), [],
       [buildPrompt customPrompt formatType language]) := by
  cases preprocess with
  | false =>
    have hstep : processImageCore imagePath formatType false customPrompt language
        ⟨raster, mkOkPage raw⟩ =
        (.ok (jsonPostProcess formatType raw),
         (if (strEndsWith imagePath "_preprocessed.jpg" || strEndsWith imagePath "_temp.jpg") =
              true then
            fsRemove [] imagePath
          else []),
         [buildPrompt customPrompt formatType language]) := by
      unfold processImageCore
      rw [if_neg (by simp [hp])]
      rfl
    rw [hstep, fsRemove_nil, ite_self]
  | true =>
    have hstep : processImageCore imagePath formatType true customPrompt language
        ⟨raster, mkOkPage raw⟩ =
        (.ok (jsonPostProcess formatType raw),
         (if (strEndsWith (imagePath ++ "_preprocessed.jpg") "_preprocessed.jpg" ||
              strEndsWith (imagePath ++ "_preprocessed.jpg") "_temp.jpg") = true then
            fsRemove [imagePath ++ "_preprocessed.jpg"] (imagePath ++ "_preprocessed.jpg")
          else [imagePath ++ "_preprocessed.jpg"]),
         [buildPrompt customPrompt formatType language]) := by
      unfold processImageCore
      rw [if_neg (by simp [hp])]
      rfl
    rw [hstep, if_pos (by simp [strEndsWith_append]), fsRemove_singleton_self]

/-! Pricing and ledger lemmas. -/

theorem scanPricing_eq_find (m : String) (t : List (String × ℚ × ℚ)) :
    scanPricing m t = (t.find? (fun e => strIn e.1 m)).map Prod.snd := by
  induction t with
  | nil => rfl
  | cons e t ih =>
    by_cases h : strIn e.1 m = true
    · rw [scanPricing, if_pos h,
        List.find?_cons_of_pos (p := fun x => strIn x.1 m) t (by simpa using h)]
      rfl
    · rw [scanPricing, if_neg h,
        List.find?_cons_of_neg (p := fun x => strIn x.1 m) t (by simpa using h), ih]

theorem scanPricing_mem {m : String} {t : List (String × ℚ × ℚ)} {p : ℚ × ℚ}
    (h : scanPricing m t = some p) : p ∈ t.map Prod.snd := by
  induction t with
  | nil => cases h
  | cons e t ih =>
    rw [scanPricing] at h
    split at h
    · cases h
      exact List.mem_cons_self _ _
    · exact List.mem_cons_of_mem _ (ih h)

theorem cost_formula_nonneg (q : ℚ × ℚ) (hq1 : 0 ≤ q.1) (hq2 : 0 ≤ q.2) (i o : Nat) :
    0 ≤ (i : ℚ) / 1000000 * q.1 + (o : ℚ) / 1000000 * q.2 := by
  have hi : (0 : ℚ) ≤ (i : ℚ) / 1000000 := by positivity
  have ho : (0 : ℚ) ≤ (o : ℚ) / 1000000 := by positivity
  exact add_nonneg (mul_nonneg hi hq1) (mul_nonneg ho hq2)

theorem openai_entries_nonneg : ∀ q ∈ openaiPricing.map Prod.snd, 0 ≤ q.1 ∧ 0 ≤ q.2 := by
  intro q hq
  simp [openaiPricing] at hq
  rcases hq with rfl | rfl | rfl | rfl | rfl <;> constructor <;> norm_num

theorem gemini_entries_nonneg : ∀ q ∈ geminiPricing.map Prod.snd, 0 ≤ q.1 ∧ 0 ≤ q.2 := by
  intro q hq
  simp [geminiPricing] at hq
  rcases hq with rfl | rfl | rfl <;> constructor <;> norm_num

theorem openai_getD_nonneg (m : String) :
    0 ≤ ((scanPricing m openaiPricing).getD (2.5, 10)).1 ∧
      0 ≤ ((scanPricing m openaiPricing).getD (2.5, 10)).2 := by
  cases h : scanPricing m openaiPricing with
  | none => norm_num
  | some p =>
    simpa using openai_entries_nonneg p (scanPricing_mem h)

theorem gemini_getD_nonneg (m : String) :
    0 ≤ ((scanPricing m geminiPricing).getD (0.075, 0.3)).1 ∧
      0 ≤ ((scanPricing m geminiPricing).getD (0.075, 0.3)).2 := by
  cases h : scanPricing m geminiPricing with
  | none => norm_num
  | some p =>
    simpa using gemini_entries_nonneg p (scanPricing_mem h)

theorem calculateCost_nonneg (apiProvider m : String) (i o : Nat) :
    0 ≤ calculateCost apiProvider m i o := by
  unfold calculateCost
  by_cases h0 : apiProvider = "ollama"
  · rw [if_pos h0]
  · rw [if_neg h0]
    by_cases h1 : apiProvider = "openai"
    · simp only [h1, if_pos]
      exact cost_formula_nonneg _ (openai_getD_nonneg m).1 (openai_getD_nonneg m).2 i o
    · rw [if_neg h1]
      by_cases h2 : apiProvider = "gemini"
      · simp only [h2, if_pos]
        exact cost_formula_nonneg _ (gemini_getD_nonneg m).1 (gemini_getD_nonneg m).2 i o
      · simp only [h2, if_neg, ite_false]
        exact le_refl 0

/-- The ledger facts preserved by every operation. -/
def LedgerInv (apiProvider : String) (l : Ledger) : Prop :=
  0 ≤ l.totalInputTokens ∧ 0 ≤ l.totalOutputTokens ∧ 0 ≤ l.totalCost ∧
    (apiProvider = "ollama" → l.totalCost = 0)

theorem ledgerInv_init (apiProvider : String) : LedgerInv apiProvider Ledger.init :=
  ⟨le_refl 0, le_refl 0, le_refl 0, fun _ => rfl⟩

theorem applyOp_inv (apiProvider m : String) (l : Ledger) (op : LedgerOp)
    (h : LedgerInv apiProvider l) : LedgerInv apiProvider (applyOp apiProvider m l op) := by
  obtain ⟨h1, h2, h3, h4⟩ := h
  cases op with
  | reset => exact ledgerInv_init apiProvider
  | call i o =>
    refine ⟨add_nonneg h1 (Int.natCast_nonneg i), add_nonneg h2 (Int.natCast_nonneg o), ?_, ?_⟩
    · show 0 ≤ (if apiProvider = "ollama" then l.totalCost else _)
      by_cases hp : apiProvider = "ollama"
      · rw [if_pos hp]; exact h3
      · rw [if_neg hp]
        exact add_nonneg h3 (calculateCost_nonneg apiProvider m i o)
    · intro hp
      show (if apiProvider = "ollama" then l.totalCost else _) = 0
      rw [if_pos hp]
      exact h4 hp

theorem foldl_applyOp_inv (apiProvider m : String) :
    ∀ (ops : List LedgerOp) (l : Ledger), LedgerInv apiProvider l →
      LedgerInv apiProvider (List.foldl (applyOp apiProvider m) l ops) := by
  intro ops
  induction ops with
  | nil => intro l h; exact h
  | cons op ops ih =>
    intro l h
    rw [List.foldl_cons]
    exact ih _ (applyOp_inv apiProvider m l op h)

/-! ## The claims -/

/-- C1 (counterexample): a batch containing one unreadable image.  The
claim says a job whose processing raises an error is recorded in the
errors map and not in results; in the code the error is caught inside
`process_image`, so the job lands in `results` as an error string and
the `errors` map stays empty. -/
theorem batch_error_in_results_counterexample :
    (processBatchJobs "markdown" true none "en"
        (fun _ => ⟨.ok [], ⟨.error "Could not read image at bad.png", .ok (), .ok ""⟩⟩)
        ["bad.png"]).errors = [] ∧
    (processBatchJobs "markdown" true none "en"
        (fun _ => ⟨.ok [], ⟨.error "Could not read image at bad.png", .ok (), .ok ""⟩⟩)
        ["bad.png"]).results =
      [("bad.png", "Error processing image: Could not read image at bad.png")] := by
  constructor <;> rfl

/-- C1 (amended): in `process_batch` the results and errors key sets
are disjoint and together cover the submitted identifiers exactly once,
and the statistics are `total = #submitted`, `successful = |results|`,
`failed = |errors|`; however a job whose processing raises is caught
inside `process_image` and recorded in `results` under its identifier
with an `"Error processing image: "`-prefixed string, while the
`errors` map stays empty (so `failed` is 0). -/
theorem process_batch_partition_amended (formatType language : String)
    (preprocess : Bool) (customPrompt : Option String)
    (io : String → JobIO) (ids : List String) :
    (processBatchJobs formatType preprocess customPrompt language io ids).errors = []
    ∧ (((processBatchJobs formatType preprocess customPrompt language io ids).results.map
          Prod.fst).Nodup)
    ∧ (∀ k, k ∈ (processBatchJobs formatType preprocess customPrompt language io ids).results.map
          Prod.fst ↔ k ∈ ids)
    ∧ (∀ k, k ∈ (processBatchJobs formatType preprocess customPrompt language io ids).results.map
          Prod.fst →
        k ∉ (processBatchJobs formatType preprocess customPrompt language io ids).errors.map
          Prod.fst)
    ∧ (processBatchJobs formatType preprocess customPrompt language io ids).total = ids.length
    ∧ (processBatchJobs formatType preprocess customPrompt language io ids).successful =
        (processBatchJobs formatType preprocess customPrompt language io ids).results.length
    ∧ (processBatchJobs formatType preprocess customPrompt language io ids).failed =
        (processBatchJobs formatType preprocess customPrompt language io ids).errors.length
    ∧ (∀ id e, id ∈ ids →
        (processImageCore id formatType preprocess customPrompt language (io id)).1 = .error e →
        (processBatchJobs formatType preprocess customPrompt language io ids).results.lookup id =
          some ("Error processing image: " ++ e)) := by
  have hb : processBatchJobs formatType preprocess customPrompt language io ids =
      ⟨resAfter (fun id =>
          (processImage id formatType preprocess customPrompt language (io id)).output) ids [],
        [], ids.length,
        (resAfter (fun id =>
          (processImage id formatType preprocess customPrompt language (io id)).output)
            ids []).length,
        ([] : List (String × String)).length⟩ := by
    unfold processBatchJobs processBatch
    rw [batchRun_ok]
  rw [hb]
  refine ⟨rfl, ?_, ?_, ?_, rfl, rfl, rfl, ?_⟩
  · exact nodup_fst_resAfter _ _ _ List.nodup_nil
  · intro k
    rw [mem_fst_resAfter]
    simp
  · intro k _ hk
    simp at hk
  · intro id e hid hcore
    rw [lookup_resAfter_mem _ _ _ _ hid, output_of_core_error hcore]

/-- C1 (witness). -/
theorem process_batch_partition_amended_witness :
    (processBatchJobs "markdown" true none "en"
        (fun _ => ⟨.ok [], ⟨.error "Could not read image at bad.png", .ok (), .ok ""⟩⟩)
        ["bad.png"]).results.lookup "bad.png" =
      some ("Error processing image: " ++ "Could not read image at bad.png") :=
  (process_batch_partition_amended "markdown" "en" true none
      (fun _ => ⟨.ok [], ⟨.error "Could not read image at bad.png", .ok (), .ok ""⟩⟩)
      ["bad.png"]).2.2.2.2.2.2.2 "bad.png" "Could not read image at bad.png"
    (List.mem_singleton.mpr rfl) rfl

/-- A successful core run determines the whole `JobRun`. -/
theorem processImage_of_core_ok {imagePath formatType language out : String}
    {customPrompt : Option String} {preprocess : Bool} {io : JobIO}
    {disk sent : List String}
    (h : processImageCore imagePath formatType preprocess customPrompt language io =
      (.ok out, disk, sent)) :
    processImage imagePath formatType preprocess customPrompt language io =
      ⟨out, disk, sent⟩ := by
  unfold processImage
  rw [h]

/-- The PDF branch when every page's three stages succeed. -/
theorem processImageCore_pdf_ok (imagePath formatType language : String)
    (customPrompt : Option String) (preprocess : Bool) (pageTexts : List String) (sio : PageIO)
    (hpdf : isPdfPath imagePath = true) :
    processImageCore imagePath formatType preprocess customPrompt language
        ⟨.ok (pageTexts.map mkOkPage), sio⟩ =
      (.ok (jsonPostProcess formatType (String.intercalate "\n" (numberPages 0 pageTexts))),
       [], List.replicate pageTexts.length (buildPrompt customPrompt formatType language)) := by
  unfold processImageCore
  rw [if_pos (by simp [hpdf])]
  simp only []
  rw [pdfLoop_allOk preprocess _ pageTexts _ 0 [] _ [] (by simp)]
  rw [foldl_cleanup_self _ ?png]
  case png =>
    intro pf hpf
    obtain ⟨i, _, rfl⟩ := List.mem_map.mp hpf
    exact pagePng_endsWith imagePath i
  simp

/-- C2 (counterexample): a one-page PDF whose backend call fails.  The
cleanup at ocr_processor.py:430-434 sits after the API call with no
`finally`, so both the rasterized page PNG and the enhanced
`_preprocessed.jpg` stay on disk when the call raises. -/
theorem temp_files_remain_counterexample :
    (processImage "doc.pdf" "markdown" true none "en"
        ⟨.ok [⟨.ok (), .ok (), .error "network error"⟩], mkOkPage ""⟩).disk =
      ["doc.pdf_page0.png", "doc.pdf_page0.png_preprocessed.jpg"] ∧
    (processImage "doc.pdf" "markdown" true none "en"
        ⟨.ok [⟨.ok (), .ok (), .error "network error"⟩], mkOkPage ""⟩).output =
      "Error processing image: network error" := by
  constructor <;> rfl

/-- C2 (amended): when every page of the job is processed successfully
— preprocessing, encoding and the backend call all return — every
temporary file created during processing (each page PNG and each
`_preprocessed.jpg`) has been deleted by the time `process_image`
returns; when a stage fails, the failing page's temporaries and the
remaining raster PNGs stay on disk. -/
theorem temp_files_deleted_on_success (imagePath formatType language response : String)
    (customPrompt : Option String) (preprocess : Bool) (pageTexts : List String)
    (raster : Except String (List PageIO)) :
    (isPdfPath imagePath = true →
      (processImage imagePath formatType preprocess customPrompt language
          ⟨.ok (pageTexts.map mkOkPage), mkOkPage response⟩).disk = [])
    ∧ (isPdfPath imagePath = false →
      (processImage imagePath formatType preprocess customPrompt language
          ⟨raster, mkOkPage response⟩).disk = []) := by
  constructor
  · intro hpdf
    rw [processImage_of_core_ok (processImageCore_pdf_ok imagePath formatType language
        customPrompt preprocess pageTexts (mkOkPage response) hpdf)]
  · intro hp
    rw [processImage_of_core_ok (processImageCore_single_ok imagePath formatType language
        response customPrompt preprocess raster hp)]

/-- C2 (witness). -/
theorem temp_files_deleted_on_success_witness :
    (processImage "doc.pdf" "markdown" true none "en"
        ⟨.ok (["a", "b", "c"].map mkOkPage), mkOkPage ""⟩).disk = [] ∧
    (processImage "img.png" "text" true none "en"
        ⟨.ok [], mkOkPage "hello"⟩).disk = [] :=
  ⟨(temp_files_deleted_on_success "doc.pdf" "markdown" "en" "" none true ["a", "b", "c"]
      (.ok [])).1 rfl,
   (temp_files_deleted_on_success "img.png" "text" "en" "hello" none true []
      (.ok [])).2 rfl⟩

/-- C3: with `format_type = "json"`, `process_image` parses the raw
backend response; on success it returns the value re-serialized with
2-space indentation (`json.dumps(..., indent=2)`), on parse failure it
returns the raw text unchanged — no error is raised or reported. -/
theorem json_postprocess_graceful (imagePath language raw : String)
    (customPrompt : Option String) (preprocess : Bool) (raster : Except String (List PageIO))
    (hp : isPdfPath imagePath = false) :
    (∀ j, jsonLoads raw = some j →
      (processImage imagePath "json" preprocess customPrompt language
          ⟨raster, mkOkPage raw⟩).output = jsonDumps2 j)
    ∧ (jsonLoads raw = none →
      (processImage imagePath "json" preprocess customPrompt language
          ⟨raster, mkOkPage raw⟩).output = raw) := by
  have hout : (processImage imagePath "json" preprocess customPrompt language
      ⟨raster, mkOkPage raw⟩).output = jsonPostProcess "json" raw := by
    rw [processImage_of_core_ok (processImageCore_single_ok imagePath "json" language raw
        customPrompt preprocess raster hp)]
  constructor
  · intro j hj
    rw [hout, jsonPostProcess, if_pos rfl, hj]
  · intro hj
    rw [hout, jsonPostProcess, if_pos rfl, hj]

/-- C3 (witness): Scenario A of the spec. -/
theorem json_postprocess_graceful_witness :
    (processImage "scan.png" "json" true none "en"
        ⟨.ok [], mkOkPage "\x7b\"a\": 1\x7d"⟩).output = "\x7b\n  \"a\": 1\n\x7d" := by
  have h := (json_postprocess_graceful "scan.png" "en" "\x7b\"a\": 1\x7d" none true (.ok [])
      rfl).1 (Json.obj [("a", Json.num 1)]) rfl
  rw [h]
  rfl

/-- `String.intercalate.go` keeps its accumulator as a leading
segment. -/
theorem intercalate_go_acc (xs : List String) :
    ∀ (acc s : String), ∃ y, String.intercalate.go acc s xs = acc ++ y := by
  induction xs with
  | nil =>
    intro acc s
    refine ⟨"", ?_⟩
    show acc = acc ++ ""
    rw [String.append_empty]
  | cons a as ih =>
    intro acc s
    obtain ⟨y, hy⟩ := ih (acc ++ s ++ a) s
    refine ⟨s ++ a ++ y, ?_⟩
    show String.intercalate.go (acc ++ s ++ a) s as = _
    rw [hy, String.append_assoc acc s a, String.append_assoc acc (s ++ a) y]

theorem intercalate_cons_ex (s x : String) (xs : List String) :
    ∃ y, String.intercalate s (x :: xs) = x ++ y :=
  intercalate_go_acc xs x s

/-- A string starting with `'P'` is not JSON: `json.loads` fails on
it. -/
theorem jsonLoads_of_head_P (s : String) (h : ∃ tail, s.data = 'P' :: tail) :
    jsonLoads s = none := by
  obtain ⟨tail, h⟩ := h
  unfold jsonLoads
  rw [h]
  rfl

/-- The `"Page N:"`-marked, newline-joined PDF output never parses as
JSON, so the json post-processing step returns it unchanged for every
format. -/
theorem jsonPostProcess_page_join (formatType : String) (pageTexts : List String) :
    jsonPostProcess formatType (String.intercalate "\n" (numberPages 0 pageTexts)) =
      String.intercalate "\n" (numberPages 0 pageTexts) := by
  unfold jsonPostProcess
  by_cases hf : formatType = "json"
  · rw [if_pos hf]
    have hnone : jsonLoads (String.intercalate "\n" (numberPages 0 pageTexts)) = none := by
      cases pageTexts with
      | nil => rfl
      | cons t ts =>
        apply jsonLoads_of_head_P
        have hn : numberPages 0 (t :: ts) =
            ("Page " ++ toString (0 + 1) ++ ":\n" ++ t) :: numberPages (0 + 1) ts := rfl
        rw [hn]
        obtain ⟨y, hy⟩ := intercalate_cons_ex "\n" ("Page " ++ toString (0 + 1) ++ ":\n" ++ t)
          (numberPages (0 + 1) ts)
        rw [hy]
        exact ⟨_, rfl⟩
    rw [hnone]
  · rw [if_neg hf]

/-- C4: a PDF's pages are processed sequentially in document order
(the page loop is a fold over the rasterized pages), each page's text
is prefixed `"Page N:"` + newline with 1-based `N`, and the pieces are
newline-joined in ascending page order (for every format — the json
post-processing never fires on a `"Page 1:"`-prefixed string). -/
theorem pdf_pages_in_order (imagePath formatType language : String)
    (customPrompt : Option String) (preprocess : Bool) (pageTexts : List String) (sio : PageIO)
    (hpdf : isPdfPath imagePath = true) :
    (processImage imagePath formatType preprocess customPrompt language
        ⟨.ok (pageTexts.map mkOkPage), sio⟩).output =
      String.intercalate "\n"
        (pageTexts.mapIdx (fun i t => "Page " ++ toString (i + 1) ++ ":\n" ++ t)) := by
  rw [processImage_of_core_ok (processImageCore_pdf_ok imagePath formatType language
      customPrompt preprocess pageTexts sio hpdf)]
  show jsonPostProcess formatType (String.intercalate "\n" (numberPages 0 pageTexts)) = _
  rw [jsonPostProcess_page_join, numberPages_eq_mapIdx]
  simp

/-- C4 (witness): Scenario C of the spec. -/
theorem pdf_pages_in_order_witness :
    (processImage "d.pdf" "markdown" true none "en"
        ⟨.ok (["a", "b", "c"].map mkOkPage), mkOkPage ""⟩).output =
      "Page 1:\na\nPage 2:\nb\nPage 3:\nc" := by
  have h := pdf_pages_in_order "d.pdf" "markdown" "en" none true ["a", "b", "c"]
      (mkOkPage "") rfl
  rw [h]
  rfl

/-- C5: `_preprocess_image` picks its binarization from the language
hint alone (`preprocessOps` is a function of nothing else): a hint in
the code's CJK list gets adaptive Gaussian thresholding with block
size 11 and constant 2 followed by inversion; every other hint gets a
global Otsu threshold followed by the same inversion. -/
theorem binarization_by_language (language : String) :
    (pyLower language ∈ cjkLanguages →
      preprocessOps language =
        [.grayscale, .claheEnhance 2 8 8, .denoise,
         .adaptiveThresholdGaussian 255 11 2, .invert])
    ∧ (pyLower language ∉ cjkLanguages →
      preprocessOps language =
        [.grayscale, .claheEnhance 2 8 8, .denoise, .otsuThreshold 0 255, .invert]) := by
  constructor
  · intro h
    unfold preprocessOps
    rw [if_pos h]
    rfl
  · intro h
    unfold preprocessOps
    rw [if_neg h]
    rfl

/-- C5 (witness): Scenario E of the spec. -/
theorem binarization_by_language_witness :
    preprocessOps "zh" =
      [.grayscale, .claheEnhance 2 8 8, .denoise,
       .adaptiveThresholdGaussian 255 11 2, .invert] ∧
    preprocessOps "en" =
      [.grayscale, .claheEnhance 2 8 8, .denoise, .otsuThreshold 0 255, .invert] :=
  ⟨(binarization_by_language "zh").1 (by decide),
   (binarization_by_language "en").2 (by decide)⟩

/-- C6: `process_image` is a total function into `String` (its blanket
`except Exception` at ocr_processor.py:518-519 never re-raises), and
whenever the body raises internally, the caller receives the ordinary
string `"Error processing image: " + str(e)` — by type
indistinguishable from extracted text. -/
theorem process_image_never_raises (imagePath formatType language msg : String)
    (customPrompt : Option String) (preprocess : Bool) (io : JobIO)
    (h : (processImageCore imagePath formatType preprocess customPrompt language io).1 =
      .error msg) :
    (processImage imagePath formatType preprocess customPrompt language io).output =
      "Error processing image: " ++ msg :=
  output_of_core_error h

/-- C6 (witness). -/
theorem process_image_never_raises_witness :
    (processImage "x.png" "markdown" true none "en"
        ⟨.ok [], ⟨.error "boom", .ok (), .ok ""⟩⟩).output =
      "Error processing image: " ++ "boom" :=
  process_image_never_raises "x.png" "markdown" "en" "boom" none true
    ⟨.ok [], ⟨.error "boom", .ok (), .ok ""⟩⟩ rfl

/-- C7: after any sequence of operations on one processor instance the
token counters are non-negative integers and the accumulated cost is
non-negative; with the local provider (`ollama`) the cost is exactly 0
however many tokens accumulated. -/
theorem ledger_invariants (apiProvider modelName : String) (ops : List LedgerOp) :
    0 ≤ (runOps apiProvider modelName ops).totalInputTokens
    ∧ 0 ≤ (runOps apiProvider modelName ops).totalOutputTokens
    ∧ 0 ≤ (runOps apiProvider modelName ops).totalCost
    ∧ (apiProvider = "ollama" → (runOps apiProvider modelName ops).totalCost = 0) :=
  foldl_applyOp_inv apiProvider modelName ops Ledger.init (ledgerInv_init apiProvider)

/-- C7 (witness). -/
theorem ledger_invariants_witness :
    (runOps "ollama" "llama3.2-vision:11b"
        [.call 120 45, .reset, .call 10 3]).totalCost = 0 :=
  (ledger_invariants "ollama" "llama3.2-vision:11b"
      [.call 120 45, .reset, .call 10 3]).2.2.2 rfl

/-- C8: for the hosted providers, `_calculate_cost` selects the
pricing entry by scanning the provider's table in insertion order and
taking the first key that is a substring of the model name, falling
back to the provider default, and returns
`inputTokens/1e6 * inputPrice + outputTokens/1e6 * outputPrice`. -/
theorem cost_first_match_formula (apiProvider modelName : String)
    (inputTokens outputTokens : Nat)
    (h : apiProvider = "openai" ∨ apiProvider = "gemini") :
    calculateCost apiProvider modelName inputTokens outputTokens =
      (inputTokens : ℚ) / 1000000 * (selectPricing apiProvider modelName).1 +
        (outputTokens : ℚ) / 1000000 * (selectPricing apiProvider modelName).2 := by
  rcases h with rfl | rfl
  · simp [calculateCost, selectPricing, scanPricing_eq_find]
  · simp [calculateCost, selectPricing, scanPricing_eq_find]

/-- C8 (witness). -/
theorem cost_first_match_formula_witness :
    calculateCost "openai" "gpt-4o-mini-2024" 1000000 2000000 =
      (1000000 : ℚ) / 1000000 * (selectPricing "openai" "gpt-4o-mini-2024").1 +
        (2000000 : ℚ) / 1000000 * (selectPricing "openai" "gpt-4o-mini-2024").2 :=
  cost_first_match_formula "openai" "gpt-4o-mini-2024" 1000000 2000000 (Or.inl rfl)

/-- C9 (counterexample): `" "` is a present, non-empty custom prompt,
yet `if custom_prompt and custom_prompt.strip()` rejects it and the
markdown template is sent instead of the custom prompt. -/
theorem whitespace_custom_prompt_counterexample :
    (processImage "img.png" "markdown" false (some " ") "en"
        ⟨.ok [], mkOkPage "txt"⟩).prompts = [templateFor "markdown" "en"] ∧
    templateFor "markdown" "en" ≠ " " := by
  constructor
  · rfl
  · decide

/-- C9 (amended): whenever the custom prompt has non-whitespace
content (Python `custom_prompt.strip()` is truthy), the prompt sent to
the backend for every page is exactly the custom prompt, regardless of
the selected format; a whitespace-only custom prompt falls back to the
format template. -/
theorem custom_prompt_overrides (imagePath formatType language c : String)
    (preprocess : Bool) (io : JobIO) (h : pyStripNonEmpty c = true) :
    ((processImage imagePath formatType preprocess (some c) language io).prompts).all
      (fun p => p == c) = true := by
  rw [List.all_eq_true]
  intro p hp
  have hbuild := processImage_prompts imagePath formatType language (some c) preprocess io p hp
  have hne : (c == "") = false := by
    by_cases hc : c = ""
    · subst hc
      simp [pyStripNonEmpty] at h
    · exact beq_eq_false_iff_ne.mpr hc
  have hb : buildPrompt (some c) formatType language = c := by
    simp [buildPrompt, hne, h]
  rw [hbuild, hb]
  exact beq_self_eq_true c

/-- C9 (witness). -/
theorem custom_prompt_overrides_witness :
    ((processImage "img.png" "markdown" false (some "My prompt") "en"
        ⟨.ok [], mkOkPage "txt"⟩).prompts).all (fun p => p == "My prompt") = true :=
  custom_prompt_overrides "img.png" "markdown" "en" "My prompt" false
    ⟨.ok [], mkOkPage "txt"⟩ rfl

/-- C10: constructing a processor for a hosted provider with no API
key raises `ValueError` during construction, before any job is
accepted; the local provider with no credential constructs fine. -/
theorem hosted_requires_api_key (apiProvider : String) :
    ((pyLower apiProvider = "openai" ∨ pyLower apiProvider = "gemini") →
      initProcessor apiProvider none =
        .error ("API key is required for " ++ pyLower apiProvider))
    ∧ (pyLower apiProvider = "ollama" → initProcessor apiProvider none = .ok ()) := by
  constructor
  · intro h
    unfold initProcessor
    rcases h with h | h <;> rw [h] <;> rfl
  · intro h
    unfold initProcessor
    rw [h]
    rfl

/-- C10 (witness). -/
theorem hosted_requires_api_key_witness :
    initProcessor "openai" none = .error ("API key is required for " ++ pyLower "openai") ∧
    initProcessor "ollama" none = .ok () :=
  ⟨(hosted_requires_api_key "openai").1 (Or.inl rfl),
   (hosted_requires_api_key "ollama").2 rfl⟩

end OcrLab
